import Mathlib

/-!
Shallow embedding of the client-side video-export pipeline of the storyboard
authoring tool (source: the `VideoEditor` component and its helpers).

Conventions of the embedding:
* canvas text is a `List Char`; the measurement function of a canvas context
  (`ctx.measureText`) is an abstract `measure : List Char → ℚ`;
* JS numbers are modelled as exact rationals `ℚ`; `Math.floor` is `Int.floor`
  and `Math.round` (on non-negative arguments) is `⌊x + 1/2⌋`;
* the side-effecting export run is modelled as the list of events it performs,
  in program order; the playback clock and the interplay between an export
  run and concurrent shot-list updates are modelled as small-step transition
  systems.
-/

namespace Storyboard

/-- Loop of `drawWrappedText` (source lines 44-53): walks the character list
with the running index `n`, the current `line` and the accumulated flushed
lines `acc`; a character whose addition would overflow `maxWidth` (and `n > 0`)
flushes the current line and starts a new one with that character.
Returns the final `line` together with the flushed lines. -/
def wrapLoop (measure : List Char → ℚ) (maxWidth : ℚ) :
    List Char → ℕ → List Char → List (List Char) → List Char × List (List Char)
  | [], _, line, acc => (line, acc)
  | c :: cs, n, line, acc =>
    let testLine := line ++ [c]
    if measure testLine > maxWidth ∧ 0 < n then
      wrapLoop measure maxWidth cs (n + 1) [c] (acc ++ [line])
    else
      wrapLoop measure maxWidth cs (n + 1) testLine acc

/-- Lines produced by `drawWrappedText`'s line-breaking loop (source lines
40-54): run the loop from the empty line, then push the final line. -/
def wrappedLines (measure : List Char → ℚ) (maxWidth : ℚ) (text : List Char) :
    List (List Char) :=
  let r := wrapLoop measure maxWidth text 0 [] []
  r.2 ++ [r.1]

/-- Inline line-counting loop of the export path (source lines 276-287): the
same greedy walk as `wrapLoop`, but it only counts flushes, starting from a
line count of 1. -/
def countLinesLoop (measure : List Char → ℚ) (maxWidth : ℚ) :
    List Char → ℕ → List Char → ℕ → ℕ
  | [], _, _, cnt => cnt
  | c :: cs, n, line, cnt =>
    let testLine := line ++ [c]
    if measure testLine > maxWidth ∧ 0 < n then
      countLinesLoop measure maxWidth cs (n + 1) [c] (cnt + 1)
    else
      countLinesLoop measure maxWidth cs (n + 1) testLine cnt

/-- Line count computed inline in the export path (source lines 276-287),
starting from `line = ''` and `lineCount = 1`. -/
def countLines (measure : List Char → ℚ) (maxWidth : ℚ) (text : List Char) : ℕ :=
  countLinesLoop measure maxWidth text 0 [] 1

/-- Shot record (source `types.ts`, `interface Shot`). -/
structure Shot where
  id : String
  sceneId : Option String
  originalScriptSegment : String
  dialogue : Option String
  visualAction : String
  cameraAngle : String
  img2vidPrompt : String
  imageUrl : Option String
  videoUrl : Option String
  isLoading : Bool
  isError : Bool
deriving DecidableEq

/-- Concrete shot used to instantiate theorems at concrete inputs. -/
def sampleShot : Shot :=
  { id := "s1", sceneId := none, originalScriptSegment := "seg",
    dialogue := some "hi", visualAction := "va", cameraAngle := "wide",
    img2vidPrompt := "p", imageUrl := none, videoUrl := none,
    isLoading := false, isError := false }

/-- Aspect-ratio enum (source `types.ts`, `enum AspectRatio`). -/
inductive AspectRatio
  | SQUARE
  | PORTRAIT
  | LANDSCAPE
  | CINEMATIC
  | CLASSIC
deriving DecidableEq

/-- Export resolution per aspect ratio (source lines 157-162): the default is
1920×1080, overridden for portrait, square, cinematic and classic; landscape
keeps the default. -/
def exportDims : AspectRatio → ℕ × ℕ
  | AspectRatio.PORTRAIT => (1080, 1920)
  | AspectRatio.SQUARE => (1080, 1080)
  | AspectRatio.CINEMATIC => (1920, 816)
  | AspectRatio.CLASSIC => (1440, 1080)
  | AspectRatio.LANDSCAPE => (1920, 1080)

/-- Result of the "object cover" placement (source lines 224-238): the drawn
rectangle `drawW × drawH` placed at `(offsetX, offsetY)`. -/
structure CoverFit where
  drawW : ℚ
  drawH : ℚ
  offsetX : ℚ
  offsetY : ℚ
deriving DecidableEq

/-- Cover-fit computation (source lines 224-238): compare the image's aspect
ratio with the canvas's; the relatively wider image fills the canvas height
and centers horizontally, otherwise the image fills the canvas width and
centers vertically. -/
def coverFit (imgW imgH width height : ℚ) : CoverFit :=
  let imgRatio := imgW / imgH
  let canvasRatio := width / height
  if imgRatio > canvasRatio then
    { drawH := height, drawW := height * imgRatio,
      offsetX := (width - height * imgRatio) / 2, offsetY := 0 }
  else
    { drawW := width, drawH := width / imgRatio,
      offsetX := 0, offsetY := (height - width / imgRatio) / 2 }

/-- Subtitle block of the export path (source lines 260-292): font size, line
height, first-line y and the drawn lines. -/
structure SubtitleBlock where
  fontSize : ℤ
  lineHeight : ℚ
  startY : ℚ
  lines : List (List Char)
deriving DecidableEq

/-- Subtitle layout of the export path (source lines 260-292): font size is
`Math.floor(height * 0.04)`, the width budget is `width * 0.85`, the line
height is `fontSize * 1.35`, the line count comes from the inline measuring
loop, and the first line starts at
`height - height * 0.08 - lineCount * lineHeight`. The measurement family
`measureAt` gives the context's measure once its font is set to `fontSize`
(the source sets the same font on the same context for measuring and
drawing). -/
def mkSubtitleBlock (measureAt : ℤ → List Char → ℚ) (width height : ℚ)
    (dialogue : List Char) : SubtitleBlock :=
  let fontSize : ℤ := ⌊height * (4 / 100)⌋
  let measure := measureAt fontSize
  let maxWidth : ℚ := width * (85 / 100)
  let lineHeight : ℚ := (fontSize : ℚ) * (135 / 100)
  let lineCount : ℕ := countLines measure maxWidth dialogue
  let totalTextH : ℚ := (lineCount : ℚ) * lineHeight
  { fontSize := fontSize,
    lineHeight := lineHeight,
    startY := height - height * (8 / 100) - totalTextH,
    lines := wrappedLines measure maxWidth dialogue }

/-- Image layer of a composited frame: a cover-fitted image, or the
"Missing Image" placeholder (source lines 223-247). -/
inductive ImageDraw
  | cover (fit : CoverFit)
  | missingImage
deriving DecidableEq

/-- One composited export frame: the image layer, and the subtitle block when
the shot has (truthy, hence non-empty) dialogue. -/
structure Frame where
  image : ImageDraw
  subtitle : Option SubtitleBlock
deriving DecidableEq

/-- Frame composition of the per-shot export loop body, steps 2-3 (source
lines 219-293): cover-fit the loaded image (`img` is `none` when
`naturalWidth` is 0, i.e. the load failed) or draw the placeholder, then draw
the subtitle block when the shot's dialogue is truthy (present and
non-empty). -/
def compositeShot (measureAt : ℤ → List Char → ℚ) (width height : ℚ)
    (img : Option (ℚ × ℚ)) (shot : Shot) : Frame :=
  let image := match img with
    | some (iw, ih) => ImageDraw.cover (coverFit iw ih width height)
    | none => ImageDraw.missingImage
  let subtitle := match shot.dialogue with
    | some d => if d.data = [] then none else
        some (mkSubtitleBlock measureAt width height d.data)
    | none => none
  { image := image, subtitle := subtitle }

/-- Events performed by one run of `handleExportVideo`, in program order. -/
inductive Event
  | setIsExporting (b : Bool)
  | setExportProgress (p : ℤ)
  | setIsPlaying (b : Bool)
  | recorderStart
  | loadImage (i : ℕ)
  | composite (i : ℕ) (frame : Frame)
  | hold (ms : ℕ)
  | recorderStop
  | alertError
deriving DecidableEq

/-- JS `Math.round` on the non-negative arguments used here. -/
def jsRound (x : ℚ) : ℤ := ⌊x + 1 / 2⌋

/-- Per-shot hold duration of the export loop, `RECORD_DURATION` (source line
201): 3000 ms per slide. -/
def RECORD_DURATION : ℕ := 3000

/-- One iteration of the per-shot export loop (source lines 203-297): update
coarse progress, await the shot's image (load result `imgOf i`), composite
image and subtitle onto the canvas, then hold for `RECORD_DURATION`. -/
def exportCycle (measureAt : ℤ → List Char → ℚ) (width height : ℚ)
    (total : ℕ) (imgOf : ℕ → Option (ℚ × ℚ)) (i : ℕ) (shot : Shot) :
    List Event :=
  [Event.setExportProgress (jsRound ((i : ℚ) / (total : ℚ) * 100)),
   Event.loadImage i,
   Event.composite i (compositeShot measureAt width height (imgOf i) shot),
   Event.hold RECORD_DURATION]

/-- The per-shot loop over the remaining shots, starting at index `i`. -/
def exportLoop (measureAt : ℤ → List Char → ℚ) (width height : ℚ)
    (total : ℕ) (imgOf : ℕ → Option (ℚ × ℚ)) :
    ℕ → List Shot → List Event
  | _, [] => []
  | i, shot :: rest =>
    exportCycle measureAt width height total imgOf i shot
      ++ exportLoop measureAt width height total imgOf (i + 1) rest

/-- Trace of one exception-free run of `handleExportVideo` (source lines
149-299): reset UI state and pause playback, start the recorder, run the
per-shot loop over the captured storyboard, then stop the recorder. The
asynchronous `onstop` finalization (blob assembly and download) is not part
of the run's synchronous trace. -/
def handleExportVideo (measureAt : ℤ → List Char → ℚ) (ar : AspectRatio)
    (imgOf : ℕ → Option (ℚ × ℚ)) (storyboard : List Shot) : List Event :=
  let width : ℚ := ((exportDims ar).1 : ℚ)
  let height : ℚ := ((exportDims ar).2 : ℚ)
  [Event.setIsExporting true, Event.setExportProgress 0,
   Event.setIsPlaying false, Event.recorderStart]
    ++ exportLoop measureAt width height storyboard.length imgOf 0 storyboard
    ++ [Event.recorderStop]

/-- Trace of a run of `handleExportVideo` in which an unexpected exception is
thrown at the start of cycle `k` of the per-shot loop: the cycles before `k`
complete, then control jumps to the catch block (source lines 301-305), which
logs, sets `isExporting` to false and alerts — and does not call
`recorder.stop()`. -/
def handleExportVideoError (measureAt : ℤ → List Char → ℚ) (ar : AspectRatio)
    (imgOf : ℕ → Option (ℚ × ℚ)) (storyboard : List Shot) (k : ℕ) :
    List Event :=
  let width : ℚ := ((exportDims ar).1 : ℚ)
  let height : ℚ := ((exportDims ar).2 : ℚ)
  [Event.setIsExporting true, Event.setExportProgress 0,
   Event.setIsPlaying false, Event.recorderStart]
    ++ exportLoop measureAt width height storyboard.length imgOf 0
        (storyboard.take k)
    ++ [Event.setIsExporting false, Event.alertError]

/-- Composite event extractor: the index and frame of a `composite` event. -/
def compOf : Event → Option (ℕ × Frame)
  | Event.composite i f => some (i, f)
  | _ => none

/-- Predicate for `hold` events. -/
def isHold : Event → Bool
  | Event.hold _ => true
  | _ => false

/-- Predicate for `recorderStop` events. -/
def isStop : Event → Bool
  | Event.recorderStop => true
  | _ => false

/-- Combined state of an in-progress export and its environment: `store` is
the application-level shot list (React state, replaced wholesale on every
update — `App.tsx` only ever calls `setShots` with a freshly built array);
`snapshot` is the `storyboard` binding captured by the running
`handleExportVideo` closure when the run started; `pc` is the loop index and
`exported` the shots composited so far. -/
structure ExportRunState where
  store : List Shot
  snapshot : List Shot
  pc : ℕ
  exported : List Shot
deriving DecidableEq

/-- Start of an export run: the closure captures the shot list as it is at
entry (source line 203 reads the `storyboard` binding of the render that
started the run). -/
def initExportRunState (shots : List Shot) : ExportRunState :=
  { store := shots, snapshot := shots, pc := 0, exported := [] }

/-- Interleaved small steps while an export is running: the environment may
replace the application's shot list at any time (`mutate`), and the export
loop composites the next shot of its captured snapshot (`exportShot`, source
lines 203-204: `storyboard[i]` read from the captured binding). -/
inductive ExportRunStep : ExportRunState → ExportRunState → Prop
  | mutate (s : ExportRunState) (newStore : List Shot) :
      ExportRunStep s { s with store := newStore }
  | exportShot (s : ExportRunState) (shot : Shot)
      (h : s.snapshot[s.pc]? = some shot) :
      ExportRunStep s
        { s with pc := s.pc + 1, exported := s.exported ++ [shot] }

/-- States reachable from the start of an export run over `shots`. -/
inductive ExportRunReachable (shots : List Shot) : ExportRunState → Prop
  | init : ExportRunReachable shots (initExportRunState shots)
  | step {s t : ExportRunState} : ExportRunReachable shots s →
      ExportRunStep s t → ExportRunReachable shots t

/-- Preview hold duration, `DURATION_PER_SHOT` (source line 75): 4000 ms. -/
def DURATION_PER_SHOT : ℕ := 4000

/-- Playback-relevant component state of `VideoEditor` (source lines 67-77):
current shot index, play flag, per-shot progress, whether the 50 ms interval
is installed, and the export flag. -/
structure PlayState where
  currentIndex : ℕ
  isPlaying : Bool
  progress : ℚ
  ticking : Bool
  isExporting : Bool
deriving DecidableEq

/-- Initial component state (source lines 67-73): index 0, playing, progress
0, not exporting; the playback interval is installed by the first effect
sync. -/
def initPlayState : PlayState :=
  { currentIndex := 0, isPlaying := true, progress := 0, ticking := false,
    isExporting := false }

/-- Body of the 50 ms interval callback (source lines 89-106): compute the
elapsed-time-based progress; at or past 100%, either advance to the next shot
(when one remains) or stop playing, pin progress at 100 and clear the
interval; otherwise store the new progress. -/
def tickUpdate (len : ℕ) (elapsed : ℚ) (s : PlayState) : PlayState :=
  let newProgress := elapsed / (DURATION_PER_SHOT : ℚ) * 100
  if newProgress ≥ 100 then
    if s.currentIndex < len - 1 then
      { s with currentIndex := s.currentIndex + 1, progress := 0 }
    else
      { s with isPlaying := false, progress := 100, ticking := false }
  else
    { s with progress := newProgress }

/-- `togglePlay` (source lines 125-134): restart from shot 0 when toggled at
the pinned end of the timeline, then flip the play flag. -/
def togglePlayUpdate (len : ℕ) (s : PlayState) : PlayState :=
  if s.isPlaying = false ∧ s.progress ≥ 100 ∧ s.currentIndex = len - 1 then
    { s with currentIndex := 0, progress := 0, isPlaying := !s.isPlaying }
  else
    { s with isPlaying := !s.isPlaying }

/-- Small-step transitions of the playback clock over a storyboard of `len`
shots. `effectSync` is the playback effect (source lines 85-115): the
interval is installed exactly when playing and not exporting. `tick` fires
only while the interval is installed. `jump` models `handleJump` at its call
sites (thumbnail clicks with `idx < len`, `handleNext` guarded by
`currentIndex < len - 1`, `handlePrev` guarded by `currentIndex > 0`), all
no-ops while exporting. `exportStart`/`exportEnd` are the export run's
writes to the playback flags (source lines 151-153 and 194). -/
inductive PlayStep (len : ℕ) : PlayState → PlayState → Prop
  | effectSync (s : PlayState) :
      PlayStep len s { s with ticking := s.isPlaying && !s.isExporting }
  | tick (s : PlayState) (elapsed : ℚ) (h : s.ticking = true) :
      PlayStep len s (tickUpdate len elapsed s)
  | jump (s : PlayState) (idx : ℕ) (hexp : s.isExporting = false)
      (hidx : idx < len) :
      PlayStep len s { s with currentIndex := idx, progress := 0 }
  | togglePlay (s : PlayState) (hexp : s.isExporting = false) :
      PlayStep len s (togglePlayUpdate len s)
  | exportStart (s : PlayState) :
      PlayStep len s { s with isExporting := true, isPlaying := false }
  | exportEnd (s : PlayState) :
      PlayStep len s { s with isExporting := false }

/-- Playback states reachable from the initial component state. -/
inductive PlayReachable (len : ℕ) : PlayState → Prop
  | init : PlayReachable len initPlayState
  | step {s t : PlayState} : PlayReachable len s → PlayStep len s t →
      PlayReachable len t

/-- Helper for C2: the concatenation of all lines the loop will ever produce
equals the already-flushed text plus the current line plus the remaining
characters. -/
theorem wrapLoop_join (measure : List Char → ℚ) (maxWidth : ℚ) :
    ∀ (cs : List Char) (n : ℕ) (line : List Char) (acc : List (List Char)),
      ((wrapLoop measure maxWidth cs n line acc).2
          ++ [(wrapLoop measure maxWidth cs n line acc).1]).flatten
        = acc.flatten ++ line ++ cs := by
  intro cs
  induction cs with
  | nil =>
    intro n line acc
    simp [wrapLoop]
  | cons c cs ih =>
    intro n line acc
    rw [wrapLoop]
    by_cases h : measure (line ++ [c]) > maxWidth ∧ 0 < n
    · rw [if_pos h, ih]
      simp
    · rw [if_neg h, ih]
      simp

/-- C2: for every input string and every width budget, concatenating the lines
produced by `drawWrappedText`'s line-breaking loop, in order, reproduces the
input string exactly — no characters dropped, duplicated or reordered. -/
theorem wrappedLines_concat (measure : List Char → ℚ) (maxWidth : ℚ)
    (text : List Char) :
    (wrappedLines measure maxWidth text).flatten = text := by
  have h := wrapLoop_join measure maxWidth text 0 [] []
  simpa [wrappedLines] using h

/-- Helper for C6: invariant of the wrap loop. Every already-flushed line fits
the budget or is a single character, and the current line fits, is a single
character, or is the initial empty line at index 0; then every produced line
fits the budget, is a single character, or is empty. -/
theorem wrapLoop_bound (measure : List Char → ℚ) (maxWidth : ℚ) :
    ∀ (cs : List Char) (n : ℕ) (line : List Char) (acc : List (List Char)),
      (∀ l ∈ acc, measure l ≤ maxWidth ∨ l.length = 1) →
      ((0 < n ∧ (measure line ≤ maxWidth ∨ line.length = 1)) ∨
        (n = 0 ∧ line = [])) →
      ∀ l ∈ (wrapLoop measure maxWidth cs n line acc).2
          ++ [(wrapLoop measure maxWidth cs n line acc).1],
        measure l ≤ maxWidth ∨ l.length = 1 ∨ l = [] := by
  intro cs
  induction cs with
  | nil =>
    intro n line acc hacc hline l hl
    simp only [wrapLoop, List.mem_append, List.mem_singleton] at hl
    rcases hl with hl | rfl
    · rcases hacc l hl with h | h
      · exact Or.inl h
      · exact Or.inr (Or.inl h)
    · rcases hline with ⟨_, h | h⟩ | ⟨_, rfl⟩
      · exact Or.inl h
      · exact Or.inr (Or.inl h)
      · exact Or.inr (Or.inr rfl)
  | cons c cs ih =>
    intro n line acc hacc hline l hl
    rw [wrapLoop] at hl
    by_cases h : measure (line ++ [c]) > maxWidth ∧ 0 < n
    · rw [if_pos h] at hl
      refine ih (n + 1) [c] (acc ++ [line]) ?_ ?_ l hl
      · intro l' hl'
        rcases List.mem_append.mp hl' with h' | h'
        · exact hacc l' h'
        · rcases List.mem_singleton.mp h' with rfl
          rcases hline with ⟨hn, hgood⟩ | ⟨hn, _⟩
          · exact hgood
          · exact absurd hn (Nat.pos_iff_ne_zero.mp h.2)
      · exact Or.inl ⟨Nat.succ_pos n, Or.inr rfl⟩
    · rw [if_neg h] at hl
      refine ih (n + 1) (line ++ [c]) acc hacc ?_ l hl
      rcases Decidable.not_and_iff_or_not.mp h with h' | h'
      · exact Or.inl ⟨Nat.succ_pos n, Or.inl (le_of_not_lt h')⟩
      · have hn : n = 0 := Nat.eq_zero_of_not_pos h'
        rcases hline with ⟨hpos, _⟩ | ⟨_, hempty⟩
        · exact absurd hn (Nat.pos_iff_ne_zero.mp hpos)
        · subst hempty
          exact Or.inl ⟨Nat.succ_pos n, Or.inr rfl⟩

/-- C6: every line produced by the line-breaking loop measures within the
budget, except possibly a line that is a single over-length character; no
character is ever split (lines are whole-character sequences by construction,
and concatenation preserves the input by `wrappedLines_concat`). The
hypothesis `measure [] ≤ maxWidth` reflects the canvas fact that the empty
string measures 0 against the positive budget `width * 0.85` used at every
call site. -/
theorem wrappedLines_width (measure : List Char → ℚ) (maxWidth : ℚ)
    (hempty : measure [] ≤ maxWidth) (text : List Char) :
    ∀ l ∈ wrappedLines measure maxWidth text,
      measure l ≤ maxWidth ∨ l.length = 1 := by
  intro l hl
  have h := wrapLoop_bound measure maxWidth text 0 [] []
    (by intro l' hl'; cases hl') (Or.inr ⟨rfl, rfl⟩) l (by simpa [wrappedLines] using hl)
  rcases h with h | h | rfl
  · exact Or.inl h
  · exact Or.inr h
  · exact Or.inl hempty

/-- Witness for C6 at a concrete measure (character count), budget 2 and the
five-character text "abcde". -/
theorem wrappedLines_width_witness :
    (fun l : List Char => (l.length : ℚ)) [] ≤ 2 ∧
      ∀ l ∈ wrappedLines (fun l : List Char => (l.length : ℚ)) 2
          ['a', 'b', 'c', 'd', 'e'],
        (fun l : List Char => (l.length : ℚ)) l ≤ 2 ∨ l.length = 1 :=
  ⟨by norm_num, wrappedLines_width (fun l => (l.length : ℚ)) 2 (by norm_num)
    ['a', 'b', 'c', 'd', 'e']⟩

/-- Helper for C10: the counting loop, started at `acc.length + k`, computes
the number of lines the wrap loop will flush, plus `k`. -/
theorem countLinesLoop_eq (measure : List Char → ℚ) (maxWidth : ℚ) :
    ∀ (cs : List Char) (n : ℕ) (line : List Char) (acc : List (List Char)) (k : ℕ),
      countLinesLoop measure maxWidth cs n line (acc.length + k)
        = (wrapLoop measure maxWidth cs n line acc).2.length + k := by
  intro cs
  induction cs with
  | nil =>
    intro n line acc k
    simp [countLinesLoop, wrapLoop]
  | cons c cs ih =>
    intro n line acc k
    rw [countLinesLoop, wrapLoop]
    by_cases h : measure (line ++ [c]) > maxWidth ∧ 0 < n
    · rw [if_pos h, if_pos h]
      have heq : acc.length + k + 1 = (acc ++ [line]).length + k := by
        simp [List.length_append]
        omega
      rw [heq, ih]
    · rw [if_neg h, if_neg h]
      exact ih (n + 1) (line ++ [c]) acc k

/-- C10: the inline measuring loop of the export path and `drawWrappedText`'s
line-breaking loop agree: for every measure, budget and text, the computed
line count equals the number of lines produced — the subtitle block height
used for positioning matches the lines actually drawn. -/
theorem countLines_eq_wrappedLines_length (measure : List Char → ℚ)
    (maxWidth : ℚ) (text : List Char) :
    countLines measure maxWidth text
      = (wrappedLines measure maxWidth text).length := by
  have h := countLinesLoop_eq measure maxWidth text 0 [] [] 1
  simpa [countLines, wrappedLines] using h

/-- C3: for positive image dimensions and a positive surface, the cover fit
fills the surface exactly on the non-cropped axis, centers the overflow on the
other axis (equal crop on both sides), and the drawn rectangle covers the
surface on the cropped axis as well. -/
theorem coverFit_spec (imgW imgH width height : ℚ)
    (hiw : 0 < imgW) (hih : 0 < imgH) (hw : 0 < width) (hh : 0 < height) :
    (imgW / imgH > width / height →
      (coverFit imgW imgH width height).drawH = height ∧
      (coverFit imgW imgH width height).offsetY = 0 ∧
      (coverFit imgW imgH width height).offsetX
        = (width - (coverFit imgW imgH width height).drawW) / 2 ∧
      0 - (coverFit imgW imgH width height).offsetX
        = (coverFit imgW imgH width height).offsetX
            + (coverFit imgW imgH width height).drawW - width ∧
      width ≤ (coverFit imgW imgH width height).drawW) ∧
    (¬ imgW / imgH > width / height →
      (coverFit imgW imgH width height).drawW = width ∧
      (coverFit imgW imgH width height).offsetX = 0 ∧
      (coverFit imgW imgH width height).offsetY
        = (height - (coverFit imgW imgH width height).drawH) / 2 ∧
      0 - (coverFit imgW imgH width height).offsetY
        = (coverFit imgW imgH width height).offsetY
            + (coverFit imgW imgH width height).drawH - height ∧
      height ≤ (coverFit imgW imgH width height).drawH) := by
  have hratio : 0 < imgW / imgH := div_pos hiw hih
  have hcanvas : 0 < width / height := div_pos hw hh
  constructor
  · intro hgt
    rw [coverFit, if_pos hgt]
    refine ⟨rfl, rfl, rfl, by ring, ?_⟩
    have hmul : height * (width / height) ≤ height * (imgW / imgH) :=
      mul_le_mul_of_nonneg_left (le_of_lt hgt) (le_of_lt hh)
    calc width = height * (width / height) := by field_simp
    _ ≤ height * (imgW / imgH) := hmul
  · intro hle
    rw [coverFit, if_neg hle]
    refine ⟨rfl, rfl, rfl, by ring, ?_⟩
    have hle' : imgW / imgH ≤ width / height := le_of_not_lt hle
    have hdiv : width / (width / height) ≤ width / (imgW / imgH) :=
      div_le_div_of_nonneg_left (le_of_lt hw) hratio hle'
    calc height = width / (width / height) := by field_simp
    _ ≤ width / (imgW / imgH) := hdiv

/-- Witness for C3 at a 200×100 image on a 100×100 surface. -/
theorem coverFit_spec_witness :
    (0 : ℚ) < 200 ∧ (0 : ℚ) < 100 ∧
      ((200 : ℚ) / 100 > 100 / 100 →
        (coverFit 200 100 100 100).drawH = 100 ∧
        (coverFit 200 100 100 100).offsetY = 0 ∧
        (coverFit 200 100 100 100).offsetX
          = (100 - (coverFit 200 100 100 100).drawW) / 2 ∧
        0 - (coverFit 200 100 100 100).offsetX
          = (coverFit 200 100 100 100).offsetX
              + (coverFit 200 100 100 100).drawW - 100 ∧
        100 ≤ (coverFit 200 100 100 100).drawW) :=
  ⟨by norm_num, by norm_num,
    (coverFit_spec 200 100 100 100 (by norm_num) (by norm_num) (by norm_num)
      (by norm_num)).1⟩

/-- C7: a shot with non-empty dialogue gets a subtitle block whose font size
is `⌊0.04·H⌋`, whose line height is `1.35 ·` font size, and whose first line
starts at `H - 0.08·H - lineCount · lineHeight`; equivalently the block's
bottom, `startY + lineCount · lineHeight`, sits `0.08·H` above the bottom
edge. -/
theorem subtitle_block_position (measureAt : ℤ → List Char → ℚ)
    (width height : ℚ) (img : Option (ℚ × ℚ)) (shot : Shot) (d : String)
    (hdia : shot.dialogue = some d) (hne : d.data ≠ []) :
    (compositeShot measureAt width height img shot).subtitle
        = some (mkSubtitleBlock measureAt width height d.data) ∧
      (mkSubtitleBlock measureAt width height d.data).fontSize
        = ⌊height * (4 / 100)⌋ ∧
      (mkSubtitleBlock measureAt width height d.data).lineHeight
        = ((⌊height * (4 / 100)⌋ : ℤ) : ℚ) * (135 / 100) ∧
      (mkSubtitleBlock measureAt width height d.data).startY
        = height - (8 / 100) * height
          - (countLines (measureAt ⌊height * (4 / 100)⌋) (width * (85 / 100))
                d.data : ℚ)
              * (mkSubtitleBlock measureAt width height d.data).lineHeight ∧
      (mkSubtitleBlock measureAt width height d.data).startY
          + (countLines (measureAt ⌊height * (4 / 100)⌋) (width * (85 / 100))
                d.data : ℚ)
              * (mkSubtitleBlock measureAt width height d.data).lineHeight
        = height - (8 / 100) * height := by
  refine ⟨?_, rfl, rfl, by simp [mkSubtitleBlock]; ring, by simp [mkSubtitleBlock]; ring⟩
  simp [compositeShot, hdia, hne]

/-- Witness for C7: the concrete `sampleShot` (dialogue "hi") on a 100×100
surface under the zero measure. -/
theorem subtitle_block_position_witness :
    sampleShot.dialogue = some "hi" ∧ ("hi" : String).data ≠ [] ∧
      (compositeShot (fun _ _ => 0) 100 100 none sampleShot).subtitle
        = some (mkSubtitleBlock (fun _ _ => 0) 100 100 ("hi" : String).data) :=
  ⟨rfl, by decide,
    (subtitle_block_position (fun _ _ => 0) 100 100 none sampleShot "hi" rfl
      (by decide)).1⟩

/-- Helper for C1: the loop over `rest` starting at index `i` composites
exactly the shots of `rest`, in order, at consecutive indices. -/
theorem exportLoop_composites (measureAt : ℤ → List Char → ℚ)
    (width height : ℚ) (total : ℕ) (imgOf : ℕ → Option (ℚ × ℚ)) :
    ∀ (rest : List Shot) (i : ℕ),
      (exportLoop measureAt width height total imgOf i rest).filterMap compOf
        = (rest.enumFrom i).map
            (fun p => (p.1, compositeShot measureAt width height (imgOf p.1) p.2)) := by
  intro rest
  induction rest with
  | nil => intro i; simp [exportLoop]
  | cons shot rest ih =>
    intro i
    simp [exportLoop, exportCycle, List.filterMap_append, compOf, ih,
      List.enumFrom_cons]

/-- Helper for C1: the loop emits one `hold` per shot and never stops the
recorder. -/
theorem exportLoop_counts (measureAt : ℤ → List Char → ℚ)
    (width height : ℚ) (total : ℕ) (imgOf : ℕ → Option (ℚ × ℚ)) :
    ∀ (rest : List Shot) (i : ℕ),
      (exportLoop measureAt width height total imgOf i rest).countP isHold
          = rest.length ∧
        (exportLoop measureAt width height total imgOf i rest).countP isStop
          = 0 := by
  intro rest
  induction rest with
  | nil => intro i; simp [exportLoop]
  | cons shot rest ih =>
    intro i
    have h := ih (i + 1)
    simp [exportLoop, exportCycle, List.countP_append, isHold, isStop,
      List.countP_cons, h.1, h.2]

/-- C1: for every storyboard of N shots, one exception-free export run
composites each shot exactly once, in snapshot order at indices `0..N-1`,
holds once per shot (N composite-and-hold cycles), and calls `stop()` on the
recorder exactly once — as the final event, after the last cycle. -/
theorem handleExportVideo_cycles (measureAt : ℤ → List Char → ℚ)
    (ar : AspectRatio) (imgOf : ℕ → Option (ℚ × ℚ)) (storyboard : List Shot) :
    (handleExportVideo measureAt ar imgOf storyboard).filterMap compOf
        = storyboard.enum.map
            (fun p => (p.1, compositeShot measureAt ((exportDims ar).1 : ℚ)
                ((exportDims ar).2 : ℚ) (imgOf p.1) p.2)) ∧
      (handleExportVideo measureAt ar imgOf storyboard).countP isHold
        = storyboard.length ∧
      (handleExportVideo measureAt ar imgOf storyboard).countP isStop = 1 ∧
      (handleExportVideo measureAt ar imgOf storyboard).getLast?
        = some Event.recorderStop := by
  have hcomp := exportLoop_composites measureAt ((exportDims ar).1 : ℚ)
    ((exportDims ar).2 : ℚ) storyboard.length imgOf storyboard 0
  have hcnt := exportLoop_counts measureAt ((exportDims ar).1 : ℚ)
    ((exportDims ar).2 : ℚ) storyboard.length imgOf storyboard 0
  refine ⟨?_, ?_, ?_, ?_⟩
  · simp [handleExportVideo, List.filterMap_append, compOf, hcomp, List.enum]
  · simp [handleExportVideo, List.countP_append, isHold, hcnt.1]
  · simp [handleExportVideo, List.countP_append, isStop, hcnt.2]
  · have hsplit : handleExportVideo measureAt ar imgOf storyboard
        = ([Event.setIsExporting true, Event.setExportProgress 0,
            Event.setIsPlaying false, Event.recorderStart]
              ++ exportLoop measureAt ((exportDims ar).1 : ℚ)
                  ((exportDims ar).2 : ℚ) storyboard.length imgOf 0 storyboard)
            ++ [Event.recorderStop] := by
      simp [handleExportVideo]
    rw [hsplit, List.getLast?_concat]

/-- C9: an export run on the empty storyboard performs zero composite-and-hold
cycles, starts the recorder and immediately stops it, and runs the happy path
to completion (its trace is exactly the setup events, `start`, `stop` — the
model of the exception-free run, so nothing is thrown). -/
theorem handleExportVideo_empty (measureAt : ℤ → List Char → ℚ)
    (ar : AspectRatio) (imgOf : ℕ → Option (ℚ × ℚ)) :
    handleExportVideo measureAt ar imgOf []
        = [Event.setIsExporting true, Event.setExportProgress 0,
           Event.setIsPlaying false, Event.recorderStart,
           Event.recorderStop] ∧
      (handleExportVideo measureAt ar imgOf []).filterMap compOf = [] := by
  constructor
  · simp [handleExportVideo, exportLoop]
  · simp [handleExportVideo, exportLoop, compOf]

/-- C4 (counter-evidence): an exception during the first cycle of a one-shot
export leaves a trace that resets the UI flag (`setIsExporting false` occurs)
but never stops the recorder (`recorderStop` does not occur) — the encoder
session is left dangling, contradicting the claim that it is stopped/released
on error. -/
theorem export_error_leaves_recorder_dangling :
    Event.setIsExporting false
        ∈ handleExportVideoError (fun _ _ => 0) AspectRatio.LANDSCAPE
            (fun _ => none) [sampleShot] 0 ∧
      Event.recorderStop
        ∉ handleExportVideoError (fun _ _ => 0) AspectRatio.LANDSCAPE
            (fun _ => none) [sampleShot] 0 := by
  constructor
  · simp [handleExportVideoError, exportLoop]
  · simp [handleExportVideoError, exportLoop]

/-- C5: an export run operates on an immutable snapshot taken at entry — in
every reachable state, however the shot list was mutated in the meantime, the
captured snapshot is still the start-time list and the shots composited so
far are exactly its first `pc` elements; a completed run has therefore
composited exactly the start-time sequence. -/
theorem export_uses_snapshot (shots : List Shot) (s : ExportRunState)
    (hr : ExportRunReachable shots s) :
    s.snapshot = shots ∧ s.exported = shots.take s.pc := by
  induction hr with
  | init => exact ⟨rfl, rfl⟩
  | @step t u hprev hstep ih =>
    cases hstep with
    | mutate newStore => exact ih
    | exportShot shot h =>
      refine ⟨ih.1, ?_⟩
      have h' : shots[t.pc]? = some shot := by rw [← ih.1]; exact h
      show t.exported ++ [shot] = shots.take (t.pc + 1)
      rw [ih.2, List.take_succ, h']
      rfl

/-- Witness for C5: a one-shot run that composites its shot and then has the
store emptied by a mutation; the exported sequence is still the snapshot. -/
theorem export_uses_snapshot_witness :
    ExportRunReachable [sampleShot]
        { store := [], snapshot := [sampleShot], pc := 1,
          exported := [sampleShot] } ∧
      ({ store := [], snapshot := [sampleShot], pc := 1,
         exported := [sampleShot] } : ExportRunState).exported
        = List.take 1 [sampleShot] := by
  have hreach : ExportRunReachable [sampleShot]
      { store := [], snapshot := [sampleShot], pc := 1,
        exported := [sampleShot] } :=
    ExportRunReachable.step
      (ExportRunReachable.step ExportRunReachable.init
        (ExportRunStep.exportShot _ _ rfl))
      (ExportRunStep.mutate _ [])
  exact ⟨hreach, (export_uses_snapshot _ _ hreach).2⟩

/-- C8: in every reachable playback state of a non-empty storyboard the shot
index stays below the shot count (never incremented past `len - 1`), and a
tick that reaches 100% progress while the current shot is the last one stops
playing, pins progress at 100 and clears the interval. -/
theorem playback_no_overflow_and_pins (len : ℕ) (hlen : 0 < len)
    (s : PlayState) (hr : PlayReachable len s) :
    s.currentIndex < len ∧
      ∀ elapsed : ℚ, 100 ≤ elapsed / (DURATION_PER_SHOT : ℚ) * 100 →
        s.currentIndex = len - 1 →
          (tickUpdate len elapsed s).isPlaying = false ∧
          (tickUpdate len elapsed s).progress = 100 ∧
          (tickUpdate len elapsed s).ticking = false := by
  constructor
  · induction hr with
    | init => exact hlen
    | @step t u hprev hstep ih =>
      cases hstep with
      | effectSync => exact ih
      | tick elapsed h =>
        unfold tickUpdate
        dsimp only
        split
        · split
          · next hidx =>
            show t.currentIndex + 1 < len
            omega
          · exact ih
        · exact ih
      | jump idx hexp hidx => exact hidx
      | togglePlay hexp =>
        unfold togglePlayUpdate
        split
        · exact hlen
        · exact ih
      | exportStart => exact ih
      | exportEnd => exact ih
  · intro elapsed hprog hlast
    unfold tickUpdate
    dsimp only
    rw [if_pos hprog, if_neg (by omega : ¬ s.currentIndex < len - 1)]
    exact ⟨rfl, rfl, rfl⟩

/-- Witness for C8 at a one-shot storyboard and the initial state. -/
theorem playback_no_overflow_witness :
    0 < 1 ∧ PlayReachable 1 initPlayState ∧
      (initPlayState.currentIndex < 1 ∧
        ∀ elapsed : ℚ, 100 ≤ elapsed / (DURATION_PER_SHOT : ℚ) * 100 →
          initPlayState.currentIndex = 1 - 1 →
            (tickUpdate 1 elapsed initPlayState).isPlaying = false ∧
            (tickUpdate 1 elapsed initPlayState).progress = 100 ∧
            (tickUpdate 1 elapsed initPlayState).ticking = false) :=
  ⟨Nat.one_pos, PlayReachable.init,
    playback_no_overflow_and_pins 1 Nat.one_pos initPlayState
      PlayReachable.init⟩

end Storyboard
